import Mathlib

/-!
Verification of the background-task/queue coordination core of EX-Installer.

This file gives a shallow embedding of the worker-thread / queue / lock core of
the repository:

* `ThreadedArduinoCLI.run` (ex_installer/arduino_cli.py, lines 89-173),
* `ThreadedGitClient.run` (ex_installer/git_client.py, lines 74-91),
* the `ArduinoCLI` methods that construct worker threads or post directly to a
  queue (get_version / get_platforms / get_libraries / install_package /
  list_boards / compile_sketch / upload_sketch),
* `WindowLayout.monitor_queue` (ex_installer/common_widgets.py, lines 163-175),

together with a small interleaving semantics for the two class-level locks
(`ThreadedArduinoCLI.arduino_cli_lock` and `ThreadedGitClient.api_lock`).

Modelling conventions:

* Python values that flow out of `json.loads` are modelled by the inductive
  type `Json`; strings are wrapped as `Json.str`.
* The outcome of the external world (what `subprocess.Popen`/`communicate`
  returns or raises, and what `json.loads` does on the captured bytes) is an
  explicit environment (`CliEnv`); the body of `run` is a pure function from
  that environment to the list of observable events (`Ev`): queue `put`s, lock
  acquisition/release, the external call, `process.terminate()`, and an
  exception escaping `run` (`Ev.raised`).
* Elapsed wall-clock time at the moment of the post-hoc timeout check is a
  whole number of seconds in the environment; the stored `time_limit` is
  `timedelta(seconds=n)`, rendered by `timedeltaRepr` exactly as Python's
  `str(timedelta)` does.
-/

/-- Python values decoded from JSON text (the possible results of `json.loads`).
Numbers are modelled as integers; none of the verified claims involves
non-integer numerics. -/
inductive Json where
  | null : Json
  | bool (b : Bool) : Json
  | num (n : Int) : Json
  | str (s : String) : Json
  | arr (xs : List Json) : Json
  | obj (kvs : List (String × Json)) : Json

mutual

/-- Python `repr` of a decoded JSON value (dicts and lists render with single
quotes, as CPython prints them). -/
def pyRepr : Json → String
  | .null => "None"
  | .bool true => "True"
  | .bool false => "False"
  | .num n => toString n
  | .str s => "\x27" ++ s ++ "\x27"
  | .arr xs => "[" ++ pyReprList xs ++ "]"
  | .obj kvs => "\x7b" ++ pyReprPairs kvs ++ "\x7d"

/-- Comma-separated reprs of the elements of a Python list. -/
def pyReprList : List Json → String
  | [] => ""
  | [x] => pyRepr x
  | x :: y :: xs => pyRepr x ++ ", " ++ pyReprList (y :: xs)

/-- Comma-separated `key: value` reprs of the items of a Python dict. -/
def pyReprPairs : List (String × Json) → String
  | [] => ""
  | [(k, v)] => "\x27" ++ k ++ "\x27: " ++ pyRepr v
  | (k, v) :: y :: xs => "\x27" ++ k ++ "\x27: " ++ pyRepr v ++ ", " ++ pyReprPairs (y :: xs)

end

/-- Python `str()` of a decoded JSON value: a string renders as itself, any
other value renders as its repr. -/
def pyStr : Json → String
  | .str s => s
  | j => pyRepr j

/-- Whether the first list of characters starts the second. -/
def leadsWith : List Char → List Char → Bool
  | [], _ => true
  | _ :: _, [] => false
  | p :: ps, c :: cs => p == c && leadsWith ps cs

/-- Whether the first list of characters occurs inside the second. -/
def subSearch (pat : List Char) : List Char → Bool
  | [] => leadsWith pat []
  | c :: cs => leadsWith pat (c :: cs) || subSearch pat cs

/-- Substring test, modelling Python's `pat in s` for strings. -/
def strContains (s pat : String) : Bool :=
  subSearch pat.data s.data

/-- Python `key in j` for a decoded JSON value: key lookup on dicts, element
equality on lists, substring test on strings; a `TypeError` otherwise. -/
def pyIn (key : String) (j : Json) : Except String Bool :=
  match j with
  | Json.obj kvs => Except.ok (kvs.any (fun kv => kv.1 == key))
  | Json.arr xs => Except.ok (xs.any (fun x => match x with | Json.str s => s == key | _ => false))
  | Json.str s => Except.ok (strContains s key)
  | _ => Except.error "TypeError"

/-- Python `j[key]` for a decoded JSON value: dict lookup (raising `KeyError`
when the key is absent), `TypeError` on every other value. -/
def pyIndex (j : Json) (key : String) : Except String Json :=
  match j with
  | Json.obj kvs =>
    match kvs.find? (fun kv => kv.1 == key) with
    | some kv => Except.ok kv.2
    | none => Except.error "KeyError"
  | _ => Except.error "TypeError"

/-- Python `j + extra` where `extra` is a string: succeeds exactly when `j` is
a string, raising `TypeError` otherwise. -/
def pyAddStr (j : Json) (extra : String) : Except String String :=
  match j with
  | Json.str s => Except.ok (s ++ extra)
  | _ => Except.error "TypeError"

/-- Python `j == ""`: true exactly for the empty string. -/
def isEmptyStr : Json → Bool
  | Json.str s => s == ""
  | _ => false

/-- Python `j is True` for a decoded JSON value. -/
def isTrueVal : Json → Bool
  | Json.bool true => true
  | _ => false

/-- Python repr of a list of strings, as interpolated by the f-string in
`ThreadedArduinoCLI.run` (`f"Arduino CLI parameters: {self.params}"`). -/
def pyStrList (xs : List String) : String :=
  "[" ++ String.intercalate ", " (xs.map (fun s => "\x27" ++ s ++ "\x27")) ++ "]"

/-- Zero-padded two-digit rendering of a minutes/seconds field. -/
def pad2 (n : Nat) : String := if n < 10 then "0" ++ toString n else toString n

/-- Python `str(datetime.timedelta(seconds=totalSeconds))`:
`H:MM:SS`, preceded by a day count when the duration reaches one day. -/
def timedeltaRepr (totalSeconds : Nat) : String :=
  let days := totalSeconds / 86400
  let rem := totalSeconds % 86400
  let base := toString (rem / 3600) ++ ":" ++ pad2 (rem % 3600 / 60) ++ ":" ++ pad2 (rem % 60)
  if days = 0 then base
  else toString days ++ (if days = 1 then " day, " else " days, ") ++ base

/-- The `QueueMessage` namedtuple `(status, topic, data)` shared by
arduino_cli.py and git_client.py.  `status` is one of the strings
`"info"`, `"success"`, `"error"`; topic and data are arbitrary Python values
(strings or decoded JSON). -/
structure QueueMessage where
  status : String
  topic : Json
  data : Json

/-- A Python exception, reduced to the two features `get_exception` reads:
the class name and the repr of its argument tuple. -/
structure PyException where
  typeName : String
  argsRepr : String

/-- `get_exception` from git_client.py (lines 46-53): formats an exception's
type name and arguments into a message string. -/
def get_exception (error : PyException) : String :=
  "An exception of type " ++ error.typeName ++ " occurred. Arguments:\n" ++ error.argsRepr

/-- The bytes captured from one of the subprocess's streams, reduced to the two
features `run` reads: Python truthiness (`if self.error:`) and the result of
`json.loads(bytes.decode())` (a decoded value, or the name of the exception
that the decode raises). -/
structure Captured where
  nonempty : Bool
  loads : Except String Json

/-- Outcome of `subprocess.Popen(...)` followed by `process.communicate()`:
either both succeed (yielding stdout, stderr and the return code), or
`communicate` raises after the process object exists, or `Popen` itself raises
(so `self.process` is never assigned).  The strings are `str(exception)`. -/
inductive PopenOutcome where
  | completed (output : Captured) (error : Captured) (returncode : Int) : PopenOutcome
  | commExn (msg : String) : PopenOutcome
  | popenExn (msg : String) : PopenOutcome

/-- The environment of one `ThreadedArduinoCLI.run` invocation: what the
external world does, plus the elapsed wall-clock seconds at the moment of the
post-hoc timeout check (`datetime.now() - start_time`). -/
structure CliEnv where
  outcome : PopenOutcome
  elapsed : Nat

/-- Observable events of one worker `run`: a message put on the queue, lock
acquisition/release of the class-level lock, executing the external call,
`process.terminate()`, and an exception escaping `run` (after the `with`
block has released the lock). -/
inductive Ev where
  | put (m : QueueMessage) : Ev
  | acquire : Ev
  | extcall : Ev
  | release : Ev
  | terminate : Ev
  | raised (e : String) : Ev

/-- The `ThreadedArduinoCLI` object as constructed by `__init__` (lines
68-87): the parameter list, `process_params = [acli_path] + params`, and
`time_limit = timedelta(seconds=time_limit)`. -/
structure ThreadedArduinoCLI where
  params : List String
  process_params : List String
  time_limit : Option Nat

/-- Default of the `time_limit` parameter of `ThreadedArduinoCLI.__init__`
(300 seconds). -/
def defaultTimeLimit : Nat := 300

/-- `ThreadedArduinoCLI.__init__`: callers that rely on the Python default
pass `defaultTimeLimit` explicitly here.  (`timedelta(seconds=...)` requires a
number, so the constructed object always carries `some` limit; the
`is not None` test inside `run` is modelled by the `Option`.) -/
def ThreadedArduinoCLI.init (acli_path : String) (params : List String)
    (time_limit : Nat) : ThreadedArduinoCLI :=
  { params := params, process_params := acli_path :: params, time_limit := some time_limit }

/-- The initial `info` message of `run` (lines 98-100). -/
def infoMessage (t : ThreadedArduinoCLI) : QueueMessage :=
  ⟨"info", Json.str "Run Arduino CLI",
    Json.str ("Arduino CLI parameters: " ++ pyStrList t.params)⟩

/-- The timeout message of `run` (lines 118-121); its data interpolates
`str(self.time_limit)`, a timedelta. -/
def timeoutMessage (lim : Nat) : QueueMessage :=
  ⟨"error", Json.str "The Arduino CLI command did not complete within the timeout period",
    Json.str ("The running Arduino CLI command took longer than " ++ timedeltaRepr lim)⟩

/-- The message posted by the `except` clause of `run` (lines 112-115):
`QueueMessage("error", str(error), str(error))`. -/
def exnMessage (s : String) : QueueMessage := ⟨"error", Json.str s, Json.str s⟩

/-- Classification of a non-empty decoded stderr payload (lines 129-144 of
arduino_cli.py), returning `(topic, data)` or the exception escaping the
classification. -/
def classifyStderr (errJson : Json) : Except String (Json × Json) := do
  let td ←
    if (← pyIn "error" errJson) then do
      let v ← pyIndex errJson "error"
      pure (Json.str (pyStr v), Json.str (pyStr v))
    else
      pure (Json.str "Error in compile or upload", Json.str "")
  let data1 ←
    if (← pyIn "output" errJson) then do
      let outVal ← pyIndex errJson "output"
      let d2 ←
        if (← pyIn "stdout" outVal) then do
          let so ← pyIndex outVal "stdout"
          if isEmptyStr so then pure td.2
          else do
            let s ← pyAddStr so "\n"
            pure (Json.str s)
        else pure td.2
      let d3 ←
        if (← pyIn "stderr" outVal) then do
          let se ← pyIndex outVal "stderr"
          if isEmptyStr se then pure d2
          else
            match d2 with
            | Json.str s => pure (Json.str (s ++ pyStr se))
            | _ => Except.error "TypeError"
        else pure d2
      pure d3
    else pure td.2
  if isEmptyStr data1 then
    pure (td.1, errJson)
  else
    pure (td.1, data1)

/-- Classification of a decoded stdout payload when stderr was empty (lines
146-160 of arduino_cli.py). -/
def classifyStdout (details : Json) : Except String (Json × Json) := do
  if (← pyIn "success" details) then do
    let sv ← pyIndex details "success"
    if isTrueVal sv then do
      let co ← pyIndex details "compiler_out"
      pure (Json.str "Success", co)
    else do
      let e ← pyIndex details "error"
      let ce ← pyIndex details "compiler_err"
      pure (e, ce)
  else do
    if (← pyIn "stdout" details) then do
      let so ← pyIndex details "stdout"
      pure (Json.str "Success", so)
    else
      pure (Json.str "Success", details)

/-- The topic/data classification of `run` (lines 126-163): stderr first, then
stdout, else the `"No output"` pair.  The `json.loads` calls sit here, outside
the `try`, so a decode failure is an `Except.error` that will escape `run`. -/
def classifyContent (output error : Captured) : Except String (Json × Json) :=
  if error.nonempty then
    match error.loads with
    | Except.error e => Except.error e
    | Except.ok errJson => classifyStderr errJson
  else if output.nonempty then
    match output.loads with
    | Except.error e => Except.error e
    | Except.ok details => classifyStdout details
  else Except.ok (Json.str "No output", Json.str "No output")

/-- The terminal message of a completed, non-timed-out `run` (lines 126-173):
topic/data from the content classification, status `"success"` exactly when
the return code is zero (lines 164-168). -/
def classify (output error : Captured) (returncode : Int) : Except String QueueMessage :=
  match classifyContent output error with
  | Except.error e => Except.error e
  | Except.ok td =>
    Except.ok ⟨if returncode = 0 then "success" else "error", td.1, td.2⟩

/-- Events of the non-timeout arm of `run` (the `else` at line 125): the
external call, then either the classified terminal message, or the exception
escaping the classification; when `Popen`/`communicate` raised, the `except`
clause already posted its message and `self.error` is unassigned, so the
el-branch raises `AttributeError` at line 129. -/
def runClassify (o : PopenOutcome) : List Ev × Option String :=
  match o with
  | PopenOutcome.completed output error rc =>
    match classify output error rc with
    | Except.ok m => ([Ev.extcall, Ev.put m], none)
    | Except.error e => ([Ev.extcall], some e)
  | PopenOutcome.commExn m => ([Ev.extcall, Ev.put (exnMessage m)], some "AttributeError")
  | PopenOutcome.popenExn m => ([Ev.put (exnMessage m)], some "AttributeError")

/-- Events of the body of the `with self.arduino_cli_lock:` block of `run`
(lines 103-173), paired with the exception (if any) that escapes the block.
The timeout test (line 117) compares elapsed wall-clock time against
`self.time_limit` only after the blocking call has returned; on timeout the
error message is posted and then `self.process.terminate()` runs —
`AttributeError` when `Popen` itself raised earlier, since `self.process` was
never assigned. -/
def runCritical (t : ThreadedArduinoCLI) (env : CliEnv) : List Ev × Option String :=
  match t.time_limit with
  | some lim =>
    if lim < env.elapsed then
      match env.outcome with
      | PopenOutcome.completed _ _ _ =>
        ([Ev.extcall, Ev.put (timeoutMessage lim), Ev.terminate], none)
      | PopenOutcome.commExn m =>
        ([Ev.extcall, Ev.put (exnMessage m), Ev.put (timeoutMessage lim), Ev.terminate], none)
      | PopenOutcome.popenExn m =>
        ([Ev.put (exnMessage m), Ev.put (timeoutMessage lim)], some "AttributeError")
    else runClassify env.outcome
  | none => runClassify env.outcome

/-- Rendering of the exception escaping the `with` block (if any) as a trailing
trace event. -/
def raisedEvents : Option String → List Ev
  | none => []
  | some e => [Ev.raised e]

/-- `ThreadedArduinoCLI.run` (lines 89-173) as the list of observable events of
one invocation: the initial `info` put, acquisition of the class-level
`arduino_cli_lock`, the events of the `with` body, the release performed by the
`with` statement, and finally any exception propagating out of `run`. -/
def ThreadedArduinoCLI.run (t : ThreadedArduinoCLI) (env : CliEnv) : List Ev :=
  Ev.put (infoMessage t) :: Ev.acquire ::
    ((runCritical t env).1 ++ Ev.release :: raisedEvents (runCritical t env).2)

/-- The `ThreadedGitClient` object (git_client.py, lines 63-72), reduced to the
field its `run` reads for messages. -/
structure ThreadedGitClient where
  task_name : String

/-- Environment of one `ThreadedGitClient.run` invocation: the reprs of the
task callable and its argument tuple (interpolated into the `info` message),
and the outcome of `self.task(*self.args)`. -/
structure GitEnv where
  taskRepr : String
  argsRepr : String
  result : Except PyException Json

/-- `ThreadedGitClient.run` (lines 74-91): the `info` put, acquisition of the
class-level `api_lock`, the task call, exactly one terminal message (the
`except` clause formats failures via `get_exception`), and the release
performed by the `with` statement. -/
def ThreadedGitClient.run (t : ThreadedGitClient) (env : GitEnv) : List Ev :=
  Ev.put ⟨"info", Json.str t.task_name,
      Json.str ("Run pygit2 task " ++ env.taskRepr ++ " with params " ++ env.argsRepr)⟩ ::
    Ev.acquire ::
    ((match env.result with
      | Except.ok output => [Ev.extcall, Ev.put ⟨"success", Json.str t.task_name, output⟩]
      | Except.error e =>
        [Ev.extcall, Ev.put ⟨"error", Json.str t.task_name, Json.str (get_exception e)⟩]) ++
      [Ev.release])

/-- `ArduinoCLI.is_installed` (lines 352-365): true when the path names a file
and it is executable; the two OS facts are inputs of the model. -/
def ArduinoCLI.is_installed (isFile isExecutable : Bool) : Bool := isFile && isExecutable

/-- What an `ArduinoCLI` queue method does from the calling thread: either
construct-and-start a worker thread, or put one message directly on the
queue. -/
inductive CliAction where
  | startThread (t : ThreadedArduinoCLI) : CliAction
  | putMessage (m : QueueMessage) : CliAction

/-- The message the queue methods post when the CLI binary is absent. -/
def cliNotInstalled : QueueMessage :=
  ⟨"error", Json.str "Arduino CLI is not installed", Json.str "Arduino CLI is not installed"⟩

/-- `ArduinoCLI.get_version` (lines 367-381). -/
def ArduinoCLI.get_version (file_path : String) (isFile isExecutable : Bool) : CliAction :=
  if ArduinoCLI.is_installed isFile isExecutable then
    CliAction.startThread
      (ThreadedArduinoCLI.init file_path ["version", "--format", "jsonmini"] defaultTimeLimit)
  else CliAction.putMessage cliNotInstalled

/-- `ArduinoCLI.get_platforms` (lines 383-397). -/
def ArduinoCLI.get_platforms (file_path : String) (isFile isExecutable : Bool) : CliAction :=
  if ArduinoCLI.is_installed isFile isExecutable then
    CliAction.startThread
      (ThreadedArduinoCLI.init file_path ["core", "list", "--format", "jsonmini"] defaultTimeLimit)
  else CliAction.putMessage cliNotInstalled

/-- `ArduinoCLI.get_libraries` (lines 399-413). -/
def ArduinoCLI.get_libraries (file_path : String) (isFile isExecutable : Bool) : CliAction :=
  if ArduinoCLI.is_installed isFile isExecutable then
    CliAction.startThread
      (ThreadedArduinoCLI.init file_path ["lib", "list", "--format", "jsonmini"] defaultTimeLimit)
  else CliAction.putMessage cliNotInstalled

/-- `ArduinoCLI.install_package` (lines 506-512): explicit 600-second limit. -/
def ArduinoCLI.install_package (file_path package : String) : ThreadedArduinoCLI :=
  ThreadedArduinoCLI.init file_path ["core", "install", package, "--format", "jsonmini"] 600

/-- `ArduinoCLI.list_boards` (lines 530-536): explicit 120-second limit. -/
def ArduinoCLI.list_boards (file_path : String) : ThreadedArduinoCLI :=
  ThreadedArduinoCLI.init file_path ["board", "list", "--format", "jsonmini"] 120

/-- `ArduinoCLI.compile_sketch` (lines 548-554): no limit argument, so the
constructor default (300 seconds) applies. -/
def ArduinoCLI.compile_sketch (file_path fqbn sketch_dir : String) : ThreadedArduinoCLI :=
  ThreadedArduinoCLI.init file_path
    ["compile", "-b", fqbn, sketch_dir, "--format", "jsonmini"] defaultTimeLimit

/-- `ArduinoCLI.upload_sketch` (lines 538-546): no limit argument, so the
constructor default (300 seconds) applies; esp32 boards get extra options. -/
def ArduinoCLI.upload_sketch (file_path fqbn port sketch_dir : String) : ThreadedArduinoCLI :=
  let params := ["upload", "-v", "-t", "-b", fqbn, "-p", port, sketch_dir, "--format", "jsonmini"]
  let params :=
    if fqbn.startsWith "esp32:esp32" then params ++ ["--board-options", "UploadSpeed=115200"]
    else params
  ThreadedArduinoCLI.init file_path params defaultTimeLimit

/-- The per-view fields `monitor_queue` assigns when it sees a terminal
message (`process_status`, `process_topic`, `process_data`); all start out
`None`. -/
structure MonitorState where
  process_status : Option String
  process_topic : Option Json
  process_data : Option Json

/-- What one `monitor_queue` call does after draining: dispatch the named
virtual event (`self.event_generate(f"<<{event}>>")`) and stop, or reschedule
itself via `self.after(100, ...)`. -/
inductive MonitorOutcome where
  | dispatched (eventName : String) : MonitorOutcome
  | rescheduled (delayMs : Nat) : MonitorOutcome

/-- `WindowLayout.monitor_queue` (common_widgets.py, lines 163-175): pops
messages while the queue is non-empty; on the first message whose status is
`"success"` or `"error"` it stores the message's fields, dispatches the named
event and returns; if the loop drains the queue without finding one it
reschedules itself after 100 ms.  Returns the new state, the remaining queue
contents, and the outcome. -/
def WindowLayout.monitor_queue (queue : List QueueMessage) (st : MonitorState)
    (event : String) : MonitorState × List QueueMessage × MonitorOutcome :=
  match queue with
  | [] => (st, [], MonitorOutcome.rescheduled 100)
  | item :: rest =>
    if item.status == "success" || item.status == "error" then
      (⟨some item.status, some item.topic, some item.data⟩, rest,
        MonitorOutcome.dispatched ("<<" ++ event ++ ">>"))
    else WindowLayout.monitor_queue rest st event

/-- Whether a trace event is a put of a terminal (`success`/`error`) message. -/
def Ev.isTerminalPut : Ev → Bool
  | Ev.put m => m.status == "success" || m.status == "error"
  | _ => false

/-- Number of terminal messages posted in a trace. -/
def terminalCount (tr : List Ev) : Nat := (tr.filter Ev.isTerminalPut).length

/-- Number of `error`-status messages posted in a trace. -/
def errorPutCount (tr : List Ev) : Nat :=
  (tr.filter (fun e => match e with | Ev.put m => m.status == "error" | _ => false)).length

/-- Scan of a trace checking that every terminal put happens while the lock is
held; the Boolean argument is the current lock state. -/
def putsWhileHeld : Bool → List Ev → Bool
  | _, [] => true
  | held, Ev.put m :: rest =>
    (!(Ev.isTerminalPut (Ev.put m)) || held) && putsWhileHeld held rest
  | _, Ev.acquire :: rest => putsWhileHeld true rest
  | _, Ev.release :: rest => putsWhileHeld false rest
  | held, _ :: rest => putsWhileHeld held rest

/-- Every terminal message of the trace is enqueued while the lock is held. -/
def terminalPutWhileHeld (tr : List Ev) : Bool := putsWhileHeld false tr

/-- Scan of a trace checking that every terminal put happens while the lock is
NOT held (the ordering the specification asserts); the Boolean argument is the
current lock state. -/
def putsUnheld : Bool → List Ev → Bool
  | _, [] => true
  | held, Ev.put m :: rest =>
    (!(Ev.isTerminalPut (Ev.put m)) || !held) && putsUnheld held rest
  | _, Ev.acquire :: rest => putsUnheld true rest
  | _, Ev.release :: rest => putsUnheld false rest
  | held, _ :: rest => putsUnheld held rest

/-- Every terminal message of the trace is enqueued after the lock has been
released (never while it is held). -/
def terminalPutsUnheld (tr : List Ev) : Bool := putsUnheld false tr

/-- Identifier of the class-level lock `ThreadedArduinoCLI.arduino_cli_lock`. -/
def arduinoCliGate : Nat := 0

/-- Identifier of the class-level lock `ThreadedGitClient.api_lock`. -/
def apiGate : Nat := 1

/-- Instructions of the abstract worker programs used by the interleaving
semantics: internal work (queue puts and the like), acquiring/releasing a
lock, and the external call executed under a lock. -/
inductive Instr where
  | work : Instr
  | lock (g : Nat) : Instr
  | unlock (g : Nat) : Instr
  | callx (g : Nat) : Instr
deriving DecidableEq

/-- The abstract instruction corresponding to one trace event of a worker
whose class-level lock is `g`. -/
def evToInstr (g : Nat) : Ev → Instr
  | Ev.acquire => Instr.lock g
  | Ev.release => Instr.unlock g
  | Ev.extcall => Instr.callx g
  | _ => Instr.work

/-- The instruction sequence of one `ThreadedArduinoCLI.run` invocation; all
lock operations are on `arduino_cli_lock`. -/
def arduinoProg (t : ThreadedArduinoCLI) (env : CliEnv) : List Instr :=
  (ThreadedArduinoCLI.run t env).map (evToInstr arduinoCliGate)

/-- The instruction sequence of one `ThreadedGitClient.run` invocation; all
lock operations are on `api_lock`. -/
def gitProg (t : ThreadedGitClient) (env : GitEnv) : List Instr :=
  (ThreadedGitClient.run t env).map (evToInstr apiGate)

/-- An instruction that touches a lock. -/
def isGateOp : Instr → Bool
  | Instr.lock _ => true
  | Instr.unlock _ => true
  | _ => false

/-- An external-call instruction. -/
def isCall : Instr → Bool
  | Instr.callx _ => true
  | _ => false

/-- An instruction segment containing no lock operations and no external
calls. -/
def plainSeg (l : List Instr) : Prop :=
  ∀ x ∈ l, isGateOp x = false ∧ isCall x = false

/-- An instruction segment containing no lock operations, whose external calls
all target gate `g` (the inside of the `with` block). -/
def critSeg (g : Nat) (l : List Instr) : Prop :=
  ∀ x ∈ l, isGateOp x = false ∧ (isCall x = true → x = Instr.callx g)

/-- The shapes a worker's remaining program can take while it runs: after its
`unlock g` (only plain instructions left), inside the critical section (its
`unlock g` still ahead), or before its `lock g` (the whole critical section
still ahead). -/
def Shape (g : Nat) (l : List Instr) : Prop :=
  plainSeg l ∨
    (∃ mid post, l = mid ++ (Instr.unlock g :: post) ∧ critSeg g mid ∧ plainSeg post) ∨
    (∃ a mid post, l = a ++ (Instr.lock g :: (mid ++ (Instr.unlock g :: post))) ∧
      plainSeg a ∧ critSeg g mid ∧ plainSeg post)

/-- A worker is inside its critical section for gate `g`: it has executed the
`lock g` (none remains in its program) but not yet the `unlock g`. -/
def inCrit (g : Nat) (l : List Instr) : Prop :=
  Instr.lock g ∉ l ∧ Instr.unlock g ∈ l

/-- State of a system of `n` interleaved workers: each worker's remaining
program, and for every gate the worker currently holding it (if any). -/
structure LockState (n : Nat) where
  rem : Fin n → List Instr
  holder : Nat → Option (Fin n)

/-- One interleaving step: some worker executes its next instruction.  A
`lock g` can only execute while no worker holds `g` (the blocking acquire of
`threading.Lock`); `unlock g` frees the gate. -/
inductive LockStep {n : Nat} : LockState n → LockState n → Prop where
  | workStep (s : LockState n) (i : Fin n) (rest : List Instr)
      (h : s.rem i = Instr.work :: rest) :
      LockStep s ⟨Function.update s.rem i rest, s.holder⟩
  | callStep (s : LockState n) (i : Fin n) (g : Nat) (rest : List Instr)
      (h : s.rem i = Instr.callx g :: rest) :
      LockStep s ⟨Function.update s.rem i rest, s.holder⟩
  | lockStep (s : LockState n) (i : Fin n) (g : Nat) (rest : List Instr)
      (h : s.rem i = Instr.lock g :: rest) (hfree : s.holder g = none) :
      LockStep s ⟨Function.update s.rem i rest, Function.update s.holder g (some i)⟩
  | unlockStep (s : LockState n) (i : Fin n) (g : Nat) (rest : List Instr)
      (h : s.rem i = Instr.unlock g :: rest) :
      LockStep s ⟨Function.update s.rem i rest, Function.update s.holder g none⟩

/-- Invariant of the interleaving semantics: every worker's remaining program
still has one of the three shapes, and a worker inside its critical section
holds its gate. -/
def LockInv {n : Nat} (gs : Fin n → Nat) (s : LockState n) : Prop :=
  (∀ i, Shape (gs i) (s.rem i)) ∧
    (∀ i, inCrit (gs i) (s.rem i) → s.holder (gs i) = some i)


theorem plain_not_inCrit {g : Nat} {l : List Instr} (hp : plainSeg l) : ¬ inCrit g l := by
  intro h
  have := (hp _ h.2).1
  simp [isGateOp] at this

theorem entry_not_inCrit {g : Nat} {a mid post : List Instr} :
    ¬ inCrit g (a ++ (Instr.lock g :: (mid ++ (Instr.unlock g :: post)))) := by
  intro h
  exact h.1 (List.mem_append_right _ (List.mem_cons_self _ _))

theorem critical_inCrit {g : Nat} {mid post : List Instr}
    (hm : critSeg g mid) (hp : plainSeg post) :
    inCrit g (mid ++ (Instr.unlock g :: post)) := by
  constructor
  · intro hmem
    rcases List.mem_append.1 hmem with h | h
    · have := (hm _ h).1
      simp [isGateOp] at this
    · rcases List.mem_cons.1 h with h | h
      · exact Instr.noConfusion h
      · have := (hp _ h).1
        simp [isGateOp] at this
  · exact List.mem_append_right _ (List.mem_cons_self _ _)

theorem unlock_head_inCrit {g : Nat} {rest : List Instr} (hp : plainSeg rest) :
    inCrit g (Instr.unlock g :: rest) := by
  constructor
  · intro hm
    rcases List.mem_cons.1 hm with h | h
    · exact Instr.noConfusion h
    · have := (hp _ h).1
      simp [isGateOp] at this
  · exact List.mem_cons_self _ _

theorem inCrit_cons {g : Nat} {x : Instr} {l : List Instr}
    (hx1 : x ≠ Instr.lock g) (hx2 : x ≠ Instr.unlock g) :
    inCrit g (x :: l) ↔ inCrit g l := by
  unfold inCrit
  rw [List.mem_cons, List.mem_cons]
  constructor
  · rintro ⟨h1, h2⟩
    refine ⟨fun hm => h1 (Or.inr hm), ?_⟩
    rcases h2 with h | h
    · exact absurd h.symm hx2
    · exact h
  · rintro ⟨h1, h2⟩
    refine ⟨?_, Or.inr h2⟩
    rintro (h | h)
    · exact hx1 h.symm
    · exact h1 h

theorem plainSeg_tail {x : Instr} {l : List Instr} (hp : plainSeg (x :: l)) : plainSeg l :=
  fun y hy => hp y (List.mem_cons_of_mem _ hy)

theorem critSeg_tail {g : Nat} {x : Instr} {l : List Instr} (hm : critSeg g (x :: l)) :
    critSeg g l :=
  fun y hy => hm y (List.mem_cons_of_mem _ hy)

theorem shape_tail {g : Nat} {x : Instr} {rest : List Instr}
    (hsh : Shape g (x :: rest)) (hx : isGateOp x = false) : Shape g rest := by
  rcases hsh with hp | ⟨mid, post, heq, hm, hp⟩ | ⟨a, mid, post, heq, ha, hm, hp⟩
  · exact Or.inl (plainSeg_tail hp)
  · cases mid with
    | nil =>
      rw [List.nil_append] at heq
      injection heq with h1 h2
      rw [h1] at hx
      simp [isGateOp] at hx
    | cons y mid' =>
      rw [List.cons_append] at heq
      injection heq with h1 h2
      exact Or.inr (Or.inl ⟨mid', post, h2, critSeg_tail hm, hp⟩)
  · cases a with
    | nil =>
      rw [List.nil_append] at heq
      injection heq with h1 h2
      rw [h1] at hx
      simp [isGateOp] at hx
    | cons y a' =>
      rw [List.cons_append] at heq
      injection heq with h1 h2
      exact Or.inr (Or.inr ⟨a', mid, post, h2, plainSeg_tail ha, hm, hp⟩)

theorem shape_lock_head {g g' : Nat} {rest : List Instr}
    (hsh : Shape g (Instr.lock g' :: rest)) :
    g' = g ∧ ∃ mid post, rest = mid ++ (Instr.unlock g :: post) ∧ critSeg g mid ∧ plainSeg post := by
  rcases hsh with hp | ⟨mid, post, heq, hm, hp⟩ | ⟨a, mid, post, heq, ha, hm, hp⟩
  · have := (hp _ (List.mem_cons_self _ _)).1
    simp [isGateOp] at this
  · cases mid with
    | nil =>
      rw [List.nil_append] at heq
      injection heq with h1 h2
      exact Instr.noConfusion h1
    | cons y mid' =>
      rw [List.cons_append] at heq
      injection heq with h1 h2
      rw [← h1] at hm
      have := (hm _ (List.mem_cons_self _ _)).1
      simp [isGateOp] at this
  · cases a with
    | nil =>
      rw [List.nil_append] at heq
      injection heq with h1 h2
      exact ⟨Instr.lock.inj h1, mid, post, h2, hm, hp⟩
    | cons y a' =>
      rw [List.cons_append] at heq
      injection heq with h1 h2
      rw [← h1] at ha
      have := (ha _ (List.mem_cons_self _ _)).1
      simp [isGateOp] at this

theorem shape_unlock_head {g g' : Nat} {rest : List Instr}
    (hsh : Shape g (Instr.unlock g' :: rest)) :
    g' = g ∧ plainSeg rest := by
  rcases hsh with hp | ⟨mid, post, heq, hm, hp⟩ | ⟨a, mid, post, heq, ha, hm, hp⟩
  · have := (hp _ (List.mem_cons_self _ _)).1
    simp [isGateOp] at this
  · cases mid with
    | nil =>
      rw [List.nil_append] at heq
      injection heq with h1 h2
      exact ⟨Instr.unlock.inj h1, h2 ▸ hp⟩
    | cons y mid' =>
      rw [List.cons_append] at heq
      injection heq with h1 h2
      rw [← h1] at hm
      have := (hm _ (List.mem_cons_self _ _)).1
      simp [isGateOp] at this
  · cases a with
    | nil =>
      rw [List.nil_append] at heq
      injection heq with h1 h2
      exact Instr.noConfusion h1
    | cons y a' =>
      rw [List.cons_append] at heq
      injection heq with h1 h2
      rw [← h1] at ha
      have := (ha _ (List.mem_cons_self _ _)).1
      simp [isGateOp] at this

theorem shape_call_head {g g' : Nat} {rest : List Instr}
    (hsh : Shape g (Instr.callx g' :: rest)) :
    g' = g ∧ inCrit g (Instr.callx g' :: rest) ∧ Shape g rest := by
  rcases hsh with hp | ⟨mid, post, heq, hm, hp⟩ | ⟨a, mid, post, heq, ha, hm, hp⟩
  · have := (hp _ (List.mem_cons_self _ _)).2
    simp [isCall] at this
  · cases mid with
    | nil =>
      rw [List.nil_append] at heq
      injection heq with h1 h2
      exact Instr.noConfusion h1
    | cons y mid' =>
      rw [List.cons_append] at heq
      injection heq with h1 h2
      rw [← h1] at hm
      have hgg : g' = g :=
        Instr.callx.inj ((hm _ (List.mem_cons_self _ _)).2 (by simp [isCall]))
      subst hgg
      refine ⟨rfl, ?_, Or.inr (Or.inl ⟨mid', post, h2, critSeg_tail hm, hp⟩)⟩
      rw [h2, ← List.cons_append]
      exact critical_inCrit hm hp
  · cases a with
    | nil =>
      rw [List.nil_append] at heq
      injection heq with h1 h2
      exact Instr.noConfusion h1
    | cons y a' =>
      rw [List.cons_append] at heq
      injection heq with h1 h2
      rw [← h1] at ha
      have := (ha _ (List.mem_cons_self _ _)).2
      simp [isCall] at this

theorem lockInv_step {n : Nat} {gs : Fin n → Nat} {s s' : LockState n}
    (hstep : LockStep s s') (hinv : LockInv gs s) : LockInv gs s' := by
  obtain ⟨hsh, hheld⟩ := hinv
  cases hstep with
  | workStep i rest h =>
    constructor
    · intro j
      show Shape (gs j) (Function.update s.rem i rest j)
      by_cases hij : j = i
      · subst hij
        rw [Function.update_same]
        have hj := hsh j
        rw [h] at hj
        exact shape_tail hj rfl
      · rw [Function.update_noteq hij]
        exact hsh j
    · intro j hcr
      have hcr' : inCrit (gs j) (Function.update s.rem i rest j) := hcr
      show s.holder (gs j) = some j
      by_cases hij : j = i
      · subst hij
        rw [Function.update_same] at hcr'
        apply hheld j
        rw [h, inCrit_cons (by simp) (by simp)]
        exact hcr'
      · rw [Function.update_noteq hij] at hcr'
        exact hheld j hcr'
  | callStep i g rest h =>
    have hj := hsh i
    rw [h] at hj
    obtain ⟨hg, hcrit, hrest⟩ := shape_call_head hj
    constructor
    · intro j
      show Shape (gs j) (Function.update s.rem i rest j)
      by_cases hij : j = i
      · subst hij
        rw [Function.update_same]
        exact hrest
      · rw [Function.update_noteq hij]
        exact hsh j
    · intro j hcr
      have hcr' : inCrit (gs j) (Function.update s.rem i rest j) := hcr
      show s.holder (gs j) = some j
      by_cases hij : j = i
      · subst hij
        rw [Function.update_same] at hcr'
        apply hheld j
        rw [h, inCrit_cons (by simp) (by simp)]
        exact hcr'
      · rw [Function.update_noteq hij] at hcr'
        exact hheld j hcr'
  | lockStep i g rest h hfree =>
    have hj := hsh i
    rw [h] at hj
    obtain ⟨hg, mid, post, hrest, hm, hp⟩ := shape_lock_head hj
    subst hg
    constructor
    · intro j
      show Shape (gs j) (Function.update s.rem i rest j)
      by_cases hij : j = i
      · subst hij
        rw [Function.update_same, hrest]
        exact Or.inr (Or.inl ⟨mid, post, rfl, hm, hp⟩)
      · rw [Function.update_noteq hij]
        exact hsh j
    · intro j hcr
      have hcr' : inCrit (gs j) (Function.update s.rem i rest j) := hcr
      show Function.update s.holder (gs i) (some i) (gs j) = some j
      by_cases hij : j = i
      · subst hij
        rw [Function.update_same]
      · rw [Function.update_noteq hij] at hcr'
        have holdj := hheld j hcr'
        by_cases hgj : gs j = gs i
        · rw [hgj, hfree] at holdj
          exact Option.noConfusion holdj
        · rw [Function.update_noteq hgj]
          exact holdj
  | unlockStep i g rest h =>
    have hj := hsh i
    rw [h] at hj
    obtain ⟨hg, hp⟩ := shape_unlock_head hj
    subst hg
    have hin : inCrit (gs i) (s.rem i) := by
      rw [h]
      exact unlock_head_inCrit hp
    have hold : s.holder (gs i) = some i := hheld i hin
    constructor
    · intro j
      show Shape (gs j) (Function.update s.rem i rest j)
      by_cases hij : j = i
      · subst hij
        rw [Function.update_same]
        exact Or.inl hp
      · rw [Function.update_noteq hij]
        exact hsh j
    · intro j hcr
      have hcr' : inCrit (gs j) (Function.update s.rem i rest j) := hcr
      show Function.update s.holder (gs i) none (gs j) = some j
      by_cases hij : j = i
      · subst hij
        rw [Function.update_same] at hcr'
        exact absurd hcr' (plain_not_inCrit hp)
      · rw [Function.update_noteq hij] at hcr'
        have holdj := hheld j hcr'
        by_cases hgj : gs j = gs i
        · rw [hgj, hold] at holdj
          exact absurd (Option.some.inj holdj).symm hij
        · rw [Function.update_noteq hgj]
          exact holdj

theorem lockInv_reach {n : Nat} {gs : Fin n → Nat} {s0 s : LockState n}
    (h0 : LockInv gs s0) (hr : Relation.ReflTransGen LockStep s0 s) : LockInv gs s := by
  induction hr with
  | refl => exact h0
  | tail _ hstep ih => exact lockInv_step hstep ih

theorem runClassify_events (o : PopenOutcome) :
    ∀ e ∈ (runClassify o).1, e ≠ Ev.acquire ∧ e ≠ Ev.release := by
  cases o with
  | completed output error rc =>
    cases hc : classify output error rc with
    | ok m =>
      intro e he
      simp [runClassify, hc] at he
      rcases he with rfl | rfl <;> simp
    | error e2 =>
      intro e he
      simp [runClassify, hc] at he
      subst he
      simp
  | commExn m =>
    intro e he
    simp [runClassify] at he
    rcases he with rfl | rfl <;> simp
  | popenExn m =>
    intro e he
    simp [runClassify] at he
    subst he
    simp

theorem runCritical_events (t : ThreadedArduinoCLI) (env : CliEnv) :
    ∀ e ∈ (runCritical t env).1, e ≠ Ev.acquire ∧ e ≠ Ev.release := by
  cases hl : t.time_limit with
  | none =>
    intro e he
    rw [runCritical.eq_def, hl] at he
    exact runClassify_events _ e he
  | some lim =>
    by_cases hlt : lim < env.elapsed
    · cases ho : env.outcome with
      | completed output error rc =>
        intro e he
        rw [runCritical.eq_def, hl] at he
        simp [hlt, ho] at he
        rcases he with rfl | rfl | rfl <;> simp
      | commExn m =>
        intro e he
        rw [runCritical.eq_def, hl] at he
        simp [hlt, ho] at he
        rcases he with rfl | rfl | rfl | rfl <;> simp
      | popenExn m =>
        intro e he
        rw [runCritical.eq_def, hl] at he
        simp [hlt, ho] at he
        rcases he with rfl | rfl <;> simp
    · intro e he
      rw [runCritical.eq_def, hl] at he
      have he2 : e ∈ (if lim < env.elapsed then
          (match env.outcome with
            | PopenOutcome.completed _ _ _ =>
              ([Ev.extcall, Ev.put (timeoutMessage lim), Ev.terminate], none)
            | PopenOutcome.commExn m =>
              ([Ev.extcall, Ev.put (exnMessage m), Ev.put (timeoutMessage lim), Ev.terminate],
                none)
            | PopenOutcome.popenExn m =>
              ([Ev.put (exnMessage m), Ev.put (timeoutMessage lim)], some "AttributeError"))
          else runClassify env.outcome).1 := he
      rw [if_neg hlt] at he2
      exact runClassify_events _ e he2


theorem critSeg_map (g : Nat) (l : List Ev)
    (h : ∀ e ∈ l, e ≠ Ev.acquire ∧ e ≠ Ev.release) :
    critSeg g (l.map (evToInstr g)) := by
  intro x hx
  rcases List.mem_map.1 hx with ⟨e, he, rfl⟩
  rcases h e he with ⟨h1, h2⟩
  cases e with
  | acquire => exact absurd rfl h1
  | release => exact absurd rfl h2
  | extcall => exact ⟨rfl, fun _ => rfl⟩
  | put m => exact ⟨rfl, fun hc => by simp [evToInstr, isCall] at hc⟩
  | terminate => exact ⟨rfl, fun hc => by simp [evToInstr, isCall] at hc⟩
  | raised s => exact ⟨rfl, fun hc => by simp [evToInstr, isCall] at hc⟩

theorem plainSeg_raisedEvents (g : Nat) (o : Option String) :
    plainSeg ((raisedEvents o).map (evToInstr g)) := by
  cases o with
  | none =>
    intro x hx
    simp [raisedEvents] at hx
  | some e =>
    intro x hx
    simp [raisedEvents, evToInstr] at hx
    subst hx
    exact ⟨rfl, rfl⟩

theorem arduinoProg_decomp (t : ThreadedArduinoCLI) (env : CliEnv) :
    arduinoProg t env =
      [Instr.work] ++ (Instr.lock arduinoCliGate ::
        ((runCritical t env).1.map (evToInstr arduinoCliGate) ++
          (Instr.unlock arduinoCliGate ::
            ((raisedEvents (runCritical t env).2).map (evToInstr arduinoCliGate))))) := by
  unfold arduinoProg ThreadedArduinoCLI.run
  simp [evToInstr]

theorem arduinoProg_shape (t : ThreadedArduinoCLI) (env : CliEnv) :
    Shape arduinoCliGate (arduinoProg t env) ∧ ¬ inCrit arduinoCliGate (arduinoProg t env) := by
  constructor
  · exact Or.inr (Or.inr ⟨[Instr.work], _, _, arduinoProg_decomp t env,
      by intro x hx; simp at hx; subst hx; exact ⟨rfl, rfl⟩,
      critSeg_map _ _ (runCritical_events t env),
      plainSeg_raisedEvents _ _⟩)
  · rw [arduinoProg_decomp t env]
    exact entry_not_inCrit

theorem gitProg_decomp (t : ThreadedGitClient) (env : GitEnv) :
    gitProg t env =
      [Instr.work] ++ (Instr.lock apiGate ::
        (((match env.result with
          | Except.ok output => [Ev.extcall, Ev.put ⟨"success", Json.str t.task_name, output⟩]
          | Except.error e =>
            [Ev.extcall,
              Ev.put ⟨"error", Json.str t.task_name, Json.str (get_exception e)⟩]).map
            (evToInstr apiGate)) ++ (Instr.unlock apiGate :: []))) := by
  unfold gitProg ThreadedGitClient.run
  simp [evToInstr]

theorem gitProg_shape (t : ThreadedGitClient) (env : GitEnv) :
    Shape apiGate (gitProg t env) ∧ ¬ inCrit apiGate (gitProg t env) := by
  refine ⟨Or.inr (Or.inr ⟨[Instr.work], _, _, gitProg_decomp t env, ?_, ?_, ?_⟩), ?_⟩
  · intro x hx
    simp at hx
    subst hx
    exact ⟨rfl, rfl⟩
  · cases env.result with
    | ok output =>
      intro x hx
      simp [evToInstr] at hx
      rcases hx with rfl | rfl
      · exact ⟨rfl, fun _ => rfl⟩
      · exact ⟨rfl, fun hc => by simp [isCall] at hc⟩
    | error e =>
      intro x hx
      simp [evToInstr] at hx
      rcases hx with rfl | rfl
      · exact ⟨rfl, fun _ => rfl⟩
      · exact ⟨rfl, fun hc => by simp [isCall] at hc⟩
  · intro x hx
    simp at hx
  · rw [gitProg_decomp t env]
    exact entry_not_inCrit


/-- Whether the post-hoc timeout check of `run` (line 117) fires: a limit is
configured and the elapsed time exceeds it. -/
def timeoutHit (t : ThreadedArduinoCLI) (env : CliEnv) : Bool :=
  match t.time_limit with
  | some lim => decide (lim < env.elapsed)
  | none => false

theorem runCritical_no_timeout {t : ThreadedArduinoCLI} {env : CliEnv}
    (h : timeoutHit t env = false) : runCritical t env = runClassify env.outcome := by
  rw [runCritical.eq_def]
  cases hl : t.time_limit with
  | none => rfl
  | some lim =>
    rw [timeoutHit.eq_def, hl] at h
    simp at h
    simp [h]

theorem classify_loads_fail {output error : Captured} {rc : Int} {e : String}
    (hne : error.nonempty = true) (hl : error.loads = Except.error e) :
    classify output error rc = Except.error e := by
  unfold classify classifyContent
  rw [hne, hl]
  simp

theorem classify_status {output error : Captured} {rc : Int} {m : QueueMessage}
    (h : classify output error rc = Except.ok m) :
    m.status = if rc = 0 then "success" else "error" := by
  unfold classify at h
  cases hcc : classifyContent output error with
  | error e =>
    rw [hcc] at h
    exact Except.noConfusion h
  | ok td =>
    rw [hcc] at h
    injection h with h2
    rw [← h2]

theorem run_completed_ok {t : ThreadedArduinoCLI} {env : CliEnv}
    {output error : Captured} {rc : Int} {m : QueueMessage}
    (ho : env.outcome = PopenOutcome.completed output error rc)
    (ht : timeoutHit t env = false)
    (hc : classify output error rc = Except.ok m) :
    ThreadedArduinoCLI.run t env =
      [Ev.put (infoMessage t), Ev.acquire, Ev.extcall, Ev.put m, Ev.release] := by
  unfold ThreadedArduinoCLI.run
  rw [runCritical_no_timeout ht, ho]
  simp [runClassify, hc, raisedEvents]

theorem run_completed_exn {t : ThreadedArduinoCLI} {env : CliEnv}
    {output error : Captured} {rc : Int} {e : String}
    (ho : env.outcome = PopenOutcome.completed output error rc)
    (ht : timeoutHit t env = false)
    (hc : classify output error rc = Except.error e) :
    ThreadedArduinoCLI.run t env =
      [Ev.put (infoMessage t), Ev.acquire, Ev.extcall, Ev.release, Ev.raised e] := by
  unfold ThreadedArduinoCLI.run
  rw [runCritical_no_timeout ht, ho]
  simp [runClassify, hc, raisedEvents]

theorem run_popen_exn {t : ThreadedArduinoCLI} {env : CliEnv} {msg : String}
    (ho : env.outcome = PopenOutcome.popenExn msg)
    (ht : timeoutHit t env = false) :
    ThreadedArduinoCLI.run t env =
      [Ev.put (infoMessage t), Ev.acquire, Ev.put (exnMessage msg), Ev.release,
        Ev.raised "AttributeError"] := by
  unfold ThreadedArduinoCLI.run
  rw [runCritical_no_timeout ht, ho]
  simp [runClassify, raisedEvents]

theorem putsWhileHeld_cons_put (held : Bool) (m : QueueMessage) (rest : List Ev)
    (h : Ev.isTerminalPut (Ev.put m) = false) :
    putsWhileHeld held (Ev.put m :: rest) = putsWhileHeld held rest := by
  simp [putsWhileHeld, h]

theorem putsWhileHeld_acquire (held : Bool) (rest : List Ev) :
    putsWhileHeld held (Ev.acquire :: rest) = putsWhileHeld true rest := by
  cases held <;> rfl

theorem putsWhileHeld_release (held : Bool) (rest : List Ev) :
    putsWhileHeld held (Ev.release :: rest) = putsWhileHeld false rest := by
  cases held <;> rfl

theorem putsWhileHeld_skip (l rest : List Ev) (h : ∀ e ∈ l, e ≠ Ev.release) :
    putsWhileHeld true (l ++ rest) = putsWhileHeld true rest := by
  induction l with
  | nil => rfl
  | cons x xs ih =>
    have hx := h x (List.mem_cons_self _ _)
    have hxs : ∀ e ∈ xs, e ≠ Ev.release := fun e he => h e (List.mem_cons_of_mem _ he)
    cases x with
    | put m => simp [putsWhileHeld, ih hxs]
    | acquire => simp [putsWhileHeld, ih hxs]
    | release => exact absurd rfl hx
    | extcall => simp [putsWhileHeld, ih hxs]
    | terminate => simp [putsWhileHeld, ih hxs]
    | raised e => simp [putsWhileHeld, ih hxs]

theorem monitor_drains (q : List QueueMessage) (st : MonitorState) (event : String)
    (h : ∀ m ∈ q, (m.status == "success" || m.status == "error") = false) :
    WindowLayout.monitor_queue q st event = (st, [], MonitorOutcome.rescheduled 100) := by
  induction q with
  | nil => rfl
  | cons item rest ih =>
    have hi := h item (List.mem_cons_self _ _)
    rw [show WindowLayout.monitor_queue (item :: rest) st event =
        if item.status == "success" || item.status == "error" then
          (⟨some item.status, some item.topic, some item.data⟩, rest,
            MonitorOutcome.dispatched ("<<" ++ event ++ ">>"))
        else WindowLayout.monitor_queue rest st event from rfl]
    rw [if_neg (by simp [hi])]
    exact ih (fun m hm => h m (List.mem_cons_of_mem _ hm))

theorem monitor_first_terminal (pre : List QueueMessage) (m : QueueMessage)
    (post : List QueueMessage) (st : MonitorState) (event : String)
    (hpre : ∀ m2 ∈ pre, (m2.status == "success" || m2.status == "error") = false)
    (hm : (m.status == "success" || m.status == "error") = true) :
    WindowLayout.monitor_queue (pre ++ (m :: post)) st event =
      (⟨some m.status, some m.topic, some m.data⟩, post,
        MonitorOutcome.dispatched ("<<" ++ event ++ ">>")) := by
  induction pre with
  | nil =>
    rw [List.nil_append]
    rw [show WindowLayout.monitor_queue (m :: post) st event =
        if m.status == "success" || m.status == "error" then
          (⟨some m.status, some m.topic, some m.data⟩, post,
            MonitorOutcome.dispatched ("<<" ++ event ++ ">>"))
        else WindowLayout.monitor_queue post st event from rfl]
    rw [if_pos hm]
  | cons item rest ih =>
    have hi := hpre item (List.mem_cons_self _ _)
    rw [List.cons_append]
    rw [show WindowLayout.monitor_queue (item :: (rest ++ (m :: post))) st event =
        if item.status == "success" || item.status == "error" then
          (⟨some item.status, some item.topic, some item.data⟩, rest ++ (m :: post),
            MonitorOutcome.dispatched ("<<" ++ event ++ ">>"))
        else WindowLayout.monitor_queue (rest ++ (m :: post)) st event from rfl]
    rw [if_neg (by simp [hi])]
    exact ih (fun m2 hm2 => hpre m2 (List.mem_cons_of_mem _ hm2))

/-- A compile worker built exactly as `ArduinoCLI.compile_sketch` does. -/
def tCompile : ThreadedArduinoCLI :=
  ArduinoCLI.compile_sketch "arduino-cli" "arduino:avr:uno" "sketchdir"

/-- A worker constructed with a 1-second limit. -/
def tOne : ThreadedArduinoCLI :=
  ThreadedArduinoCLI.init "arduino-cli" ["version", "--format", "jsonmini"] 1

/-- An empty captured stream: falsy, and `json.loads("")` raises. -/
def capAbsent : Captured := ⟨false, Except.error "JSONDecodeError"⟩

/-- A non-empty captured stream whose bytes are not valid JSON. -/
def capBadJson : Captured := ⟨true, Except.error "JSONDecodeError"⟩

/-- Subprocess run that exits 1 with malformed (non-JSON) stderr. -/
def envBadJson : CliEnv := ⟨PopenOutcome.completed capAbsent capBadJson 1, 0⟩

/-- Subprocess run that exits 1 with stderr decoding to the payload of the
specification's stderr scenario. -/
def env9 : CliEnv :=
  ⟨PopenOutcome.completed capAbsent
    ⟨true, Except.ok (Json.obj [("error", Json.str "bad board"),
      ("output", Json.obj [("stderr", Json.str "detail")])])⟩ 1, 0⟩

/-- Subprocess run that exits 0 with stdout decoding to a dict with a
`stdout` field and empty stderr. -/
def envOk : CliEnv :=
  ⟨PopenOutcome.completed ⟨true, Except.ok (Json.obj [("stdout", Json.str "ok")])⟩
    capAbsent 0, 0⟩

/-- Subprocess run that exits 0 after 5 elapsed seconds. -/
def envTimeout : CliEnv := ⟨PopenOutcome.completed capAbsent capAbsent 0, 5⟩

/-- `Popen` itself raises (e.g. the binary is missing). -/
def envPopenFail : CliEnv := ⟨PopenOutcome.popenExn "No such file or directory", 0⟩

/-- C1: the claim asserts that every `ThreadedArduinoCLI.run` / 
`ThreadedGitClient.run` invocation posts exactly one terminal message and that
no exception escapes the worker thread.  The code violates this: the
`json.loads` calls (arduino_cli.py lines 130 and 147) sit outside the
`try`/`except`, so a run whose stderr is non-empty but not valid JSON raises
`json.JSONDecodeError` out of `run` after posting only the `info` message —
zero terminal messages.  This theorem evaluates the embedded `run` at that
failing input. -/
theorem arduino_run_malformed_stderr_posts_no_terminal :
    ThreadedArduinoCLI.run tCompile envBadJson =
      [Ev.put (infoMessage tCompile), Ev.acquire, Ev.extcall, Ev.release,
        Ev.raised "JSONDecodeError"] ∧
    terminalCount (ThreadedArduinoCLI.run tCompile envBadJson) = 0 :=
  ⟨rfl, rfl⟩

/-- C2 counterexample: on malformed stderr the worker posts no `error` message
at all — the decode exception escapes `run` uncaught — falsifying the claim
that malformed output is surfaced through the generic exception path as an
`error` message. -/
theorem arduino_run_malformed_stderr_no_error_message :
    errorPutCount (ThreadedArduinoCLI.run tCompile envBadJson) = 0 ∧
    ThreadedArduinoCLI.run tCompile envBadJson =
      [Ev.put (infoMessage tCompile), Ev.acquire, Ev.extcall, Ev.release,
        Ev.raised "JSONDecodeError"] :=
  ⟨rfl, rfl⟩

/-- C2 (amended): if the captured error stream fails to parse as JSON, no
message is emitted for the failure — the decode exception escapes the worker
thread after the `with` block releases the lock; the `except` clause covers
only failures raised while launching the operation, and it posts
`QueueMessage("error", str(error), str(error))` (not the
type-name-and-arguments text of `get_exception`). -/
theorem arduino_run_exception_paths :
    (∀ (t : ThreadedArduinoCLI) (env : CliEnv) (output error : Captured) (rc : Int)
      (e : String), env.outcome = PopenOutcome.completed output error rc →
      timeoutHit t env = false → error.nonempty = true → error.loads = Except.error e →
      ThreadedArduinoCLI.run t env =
        [Ev.put (infoMessage t), Ev.acquire, Ev.extcall, Ev.release, Ev.raised e]) ∧
    (∀ (t : ThreadedArduinoCLI) (env : CliEnv) (msg : String),
      env.outcome = PopenOutcome.popenExn msg → timeoutHit t env = false →
      ThreadedArduinoCLI.run t env =
        [Ev.put (infoMessage t), Ev.acquire, Ev.put (exnMessage msg), Ev.release,
          Ev.raised "AttributeError"] ∧
      exnMessage msg = ⟨"error", Json.str msg, Json.str msg⟩) := by
  constructor
  · intro t env output error rc e ho ht hne hl
    exact run_completed_exn ho ht (classify_loads_fail hne hl)
  · intro t env msg ho ht
    exact ⟨run_popen_exn ho ht, rfl⟩

theorem arduino_run_exception_paths_witness :
    ThreadedArduinoCLI.run tOne envBadJson =
      [Ev.put (infoMessage tOne), Ev.acquire, Ev.extcall, Ev.release,
        Ev.raised "JSONDecodeError"] ∧
    (ThreadedArduinoCLI.run tOne envPopenFail =
      [Ev.put (infoMessage tOne), Ev.acquire,
        Ev.put (exnMessage "No such file or directory"), Ev.release,
        Ev.raised "AttributeError"] ∧
      exnMessage "No such file or directory" =
        ⟨"error", Json.str "No such file or directory",
          Json.str "No such file or directory"⟩) :=
  ⟨arduino_run_exception_paths.1 tOne envBadJson capAbsent capBadJson 1 "JSONDecodeError"
      rfl rfl rfl rfl,
    arduino_run_exception_paths.2 tOne envPopenFail "No such file or directory" rfl rfl⟩

/-- C3 counterexample: `compile_sketch` and `upload_sketch` construct their
workers without a `time_limit` argument, so the constructor default of 300
seconds applies — the limit is not `None`/unbounded as the claim states. -/
theorem compile_and_upload_use_default_limit :
    (ArduinoCLI.compile_sketch "arduino-cli" "arduino:avr:uno" "sketchdir").time_limit =
      some 300 ∧
    (ArduinoCLI.upload_sketch "arduino-cli" "arduino:avr:uno" "COM5" "sketchdir").time_limit =
      some 300 ∧
    (ArduinoCLI.compile_sketch "arduino-cli" "arduino:avr:uno" "sketchdir").time_limit ≠
      none := by
  refine ⟨rfl, rfl, by decide⟩

/-- C3 (amended): worker time limits are 300 seconds by default, 120 seconds
for `list_boards`, 600 seconds for `install_package`, and also the default 300
seconds (not unbounded) for `compile_sketch` and `upload_sketch`. -/
theorem worker_time_limits (file_path package fqbn port sketch_dir : String)
    (params : List String) :
    (ThreadedArduinoCLI.init file_path params defaultTimeLimit).time_limit = some 300 ∧
    (ArduinoCLI.install_package file_path package).time_limit = some 600 ∧
    (ArduinoCLI.list_boards file_path).time_limit = some 120 ∧
    (ArduinoCLI.compile_sketch file_path fqbn sketch_dir).time_limit = some 300 ∧
    (ArduinoCLI.upload_sketch file_path fqbn port sketch_dir).time_limit = some 300 :=
  ⟨rfl, rfl, rfl, rfl, rfl⟩

/-- C4 counterexample: on an ordinary successful run the terminal message is
put on the queue inside the `with` block, i.e. while the gate is still held;
the release only happens afterwards.  This falsifies the claim that the
release happens-before the terminal message is posted. -/
theorem terminal_message_posted_while_gate_held_example :
    terminalPutsUnheld (ThreadedArduinoCLI.run tCompile envOk) = false ∧
    terminalCount (ThreadedArduinoCLI.run tCompile envOk) = 1 ∧
    ThreadedArduinoCLI.run tCompile envOk =
      [Ev.put (infoMessage tCompile), Ev.acquire, Ev.extcall,
        Ev.put ⟨"success", Json.str "Success", Json.str "ok"⟩, Ev.release] :=
  ⟨rfl, rfl, rfl⟩

/-- C4 (amended): in every worker run (both the CLI worker and the git
worker), every terminal message is enqueued while the gate is held; the
`with` statement releases the gate only after the terminal message is
posted. -/
theorem terminal_message_posted_before_release :
    (∀ (t : ThreadedArduinoCLI) (env : CliEnv),
      terminalPutWhileHeld (ThreadedArduinoCLI.run t env) = true) ∧
    (∀ (t : ThreadedGitClient) (env : GitEnv),
      terminalPutWhileHeld (ThreadedGitClient.run t env) = true) := by
  constructor
  · intro t env
    unfold terminalPutWhileHeld ThreadedArduinoCLI.run
    rw [putsWhileHeld_cons_put false (infoMessage t) _ (by rfl), putsWhileHeld_acquire,
      putsWhileHeld_skip _ _ (fun e he => (runCritical_events t env e he).2),
      putsWhileHeld_release]
    cases (runCritical t env).2 with
    | none => rfl
    | some e => rfl
  · intro t env
    unfold terminalPutWhileHeld ThreadedGitClient.run
    cases env.result with
    | ok output => rfl
    | error e => rfl

/-- C5: for a CLI worker run in which the subprocess completed and the
post-hoc timeout check does not fire, any terminal message put on the queue
has status `"success"` exactly when the return code is zero and `"error"`
otherwise — whatever the decoded stdout/stderr content was, the parsed content
only ever supplies topic and data, never the status. -/
theorem exit_code_determines_status (t : ThreadedArduinoCLI) (env : CliEnv)
    (output error : Captured) (rc : Int) (m : QueueMessage)
    (ho : env.outcome = PopenOutcome.completed output error rc)
    (ht : timeoutHit t env = false)
    (hmem : Ev.put m ∈ ThreadedArduinoCLI.run t env)
    (hni : m.status ≠ "info") :
    m.status = (if rc = 0 then "success" else "error") ∧
      (m.status = "success" ↔ rc = 0) := by
  cases hc : classify output error rc with
  | ok m2 =>
    rw [run_completed_ok ho ht hc] at hmem
    simp at hmem
    rcases hmem with rfl | rfl
    · exact absurd rfl hni
    · have hs := classify_status hc
      refine ⟨hs, ?_⟩
      by_cases hrc : rc = 0
      · simp [hrc] at hs
        simp [hs, hrc]
      · simp [hrc] at hs
        simp [hs, hrc]
  | error e =>
    rw [run_completed_exn ho ht hc] at hmem
    simp at hmem
    subst hmem
    exact absurd rfl hni

theorem exit_code_determines_status_witness :
    ((⟨"success", Json.str "Success", Json.str "ok"⟩ : QueueMessage).status =
        (if (0 : Int) = 0 then "success" else "error") ∧
      ((⟨"success", Json.str "Success", Json.str "ok"⟩ : QueueMessage).status = "success" ↔
        (0 : Int) = 0)) :=
  exit_code_determines_status tCompile envOk
    ⟨true, Except.ok (Json.obj [("stdout", Json.str "ok")])⟩ capAbsent 0
    ⟨"success", Json.str "Success", Json.str "ok"⟩ rfl rfl
    (by rw [show ThreadedArduinoCLI.run tCompile envOk =
        [Ev.put (infoMessage tCompile), Ev.acquire, Ev.extcall,
          Ev.put ⟨"success", Json.str "Success", Json.str "ok"⟩, Ev.release] from rfl]
        simp)
    (by simp)

/-- C6: there are exactly two process-wide gates — `arduino_cli_lock`
(`arduinoCliGate`) used by every `ThreadedArduinoCLI.run`, and `api_lock`
(`apiGate`) used by every `ThreadedGitClient.run` — and they are distinct.
Every worker trace is a well-shaped program for its gate (one `lock`, one
`unlock`, the external call strictly between them), and in every state
reachable by interleaving any number of such workers under the lock
semantics, (a) no two workers sharing a gate are simultaneously inside their
critical sections, and (b) a worker about to execute its external call holds
its gate.  Together these give that the wall-clock intervals in which two
workers of one gate execute their external calls cannot overlap, and that the
gate is held for the full duration of the external call. -/
theorem two_gates_mutual_exclusion :
    arduinoCliGate ≠ apiGate ∧
    (∀ (t : ThreadedArduinoCLI) (env : CliEnv),
      Shape arduinoCliGate (arduinoProg t env) ∧
        ¬ inCrit arduinoCliGate (arduinoProg t env)) ∧
    (∀ (t : ThreadedGitClient) (env : GitEnv),
      Shape apiGate (gitProg t env) ∧ ¬ inCrit apiGate (gitProg t env)) ∧
    (∀ (n : Nat) (gs : Fin n → Nat) (s0 s : LockState n),
      (∀ i, Shape (gs i) (s0.rem i)) →
      (∀ i, ¬ inCrit (gs i) (s0.rem i)) →
      (∀ g, s0.holder g = none) →
      Relation.ReflTransGen LockStep s0 s →
      (∀ i j, i ≠ j → gs i = gs j →
        ¬ (inCrit (gs i) (s.rem i) ∧ inCrit (gs j) (s.rem j))) ∧
      (∀ i g rest, s.rem i = Instr.callx g :: rest →
        g = gs i ∧ s.holder g = some i)) := by
  refine ⟨by decide, arduinoProg_shape, gitProg_shape, ?_⟩
  intro n gs s0 s hsh hnc hhold hreach
  have h0 : LockInv gs s0 := ⟨hsh, fun i hc => absurd hc (hnc i)⟩
  have hinv := lockInv_reach h0 hreach
  constructor
  · rintro i j hij hg ⟨h1, h2⟩
    have e1 := hinv.2 i h1
    have e2 := hinv.2 j h2
    rw [hg] at e1
    rw [e2] at e1
    exact hij (Option.some.inj e1).symm
  · intro i g rest hrem
    have hshp := hinv.1 i
    rw [hrem] at hshp
    obtain ⟨hg, hcr, _⟩ := shape_call_head hshp
    subst hg
    refine ⟨rfl, ?_⟩
    apply hinv.2 i
    rw [hrem]
    exact hcr

/-- A CLI worker used to build a concrete two-worker system for the gate
witness. -/
def demoEnv : CliEnv := ⟨PopenOutcome.completed capAbsent capAbsent 0, 0⟩

/-- Initial state of two CLI workers contending for `arduino_cli_lock`. -/
def demoState : LockState 2 :=
  ⟨fun _ => arduinoProg tOne demoEnv, fun _ => none⟩

theorem two_gates_mutual_exclusion_witness :
    ¬ (inCrit arduinoCliGate (demoState.rem 0) ∧
        inCrit arduinoCliGate (demoState.rem 1)) ∧
    arduinoCliGate ≠ apiGate :=
  ⟨(two_gates_mutual_exclusion.2.2.2 2 (fun _ => arduinoCliGate) demoState demoState
      (fun _ => (two_gates_mutual_exclusion.2.1 tOne demoEnv).1)
      (fun _ => (two_gates_mutual_exclusion.2.1 tOne demoEnv).2)
      (fun _ => rfl) Relation.ReflTransGen.refl).1 0 1 (by decide) rfl,
    two_gates_mutual_exclusion.1⟩

/-- C7: `monitor_queue` dispatches its named event exactly on the first
terminal (`success`/`error`) message.  Part one: a queue containing only
non-terminal messages is drained completely, the per-view result fields are
untouched, no event fires, and the call reschedules itself after the fixed
100 ms delay (there is no poller-level timeout: the rescheduled call is the
same `monitor_queue` again).  Part two: with the queue holding non-terminal
messages followed by a terminal message `m`, the call drains everything up to
and including `m`, stores `m`'s status/topic/data as the current result,
dispatches the `<<event>>` virtual event, and does not reschedule. -/
theorem monitor_queue_dispatches_on_first_terminal :
    (∀ (q : List QueueMessage) (st : MonitorState) (event : String),
      (∀ m ∈ q, (m.status == "success" || m.status == "error") = false) →
      WindowLayout.monitor_queue q st event = (st, [], MonitorOutcome.rescheduled 100)) ∧
    (∀ (pre : List QueueMessage) (m : QueueMessage) (post : List QueueMessage)
      (st : MonitorState) (event : String),
      (∀ m2 ∈ pre, (m2.status == "success" || m2.status == "error") = false) →
      (m.status == "success" || m.status == "error") = true →
      WindowLayout.monitor_queue (pre ++ (m :: post)) st event =
        (⟨some m.status, some m.topic, some m.data⟩, post,
          MonitorOutcome.dispatched ("<<" ++ event ++ ">>"))) :=
  ⟨monitor_drains, monitor_first_terminal⟩

/-- An `info` message as posted at the start of a CLI worker run. -/
def monMsgStart : QueueMessage := ⟨"info", Json.str "Run Arduino CLI", Json.str "starting"⟩

/-- A terminal success message. -/
def monMsgDone : QueueMessage := ⟨"success", Json.str "Success", Json.str "done"⟩

/-- A message sitting behind the first terminal one. -/
def monMsgLate : QueueMessage := ⟨"info", Json.str "late", Json.str "late"⟩

/-- The initial per-view monitor state (all fields `None`). -/
def monState0 : MonitorState := ⟨none, none, none⟩

theorem monitor_queue_dispatches_on_first_terminal_witness :
    WindowLayout.monitor_queue [monMsgStart, monMsgDone, monMsgLate] monState0
        "queue_monitor" =
      (⟨some monMsgDone.status, some monMsgDone.topic, some monMsgDone.data⟩, [monMsgLate],
        MonitorOutcome.dispatched ("<<" ++ "queue_monitor" ++ ">>")) :=
  monitor_queue_dispatches_on_first_terminal.2 [monMsgStart] monMsgDone [monMsgLate]
    monState0 "queue_monitor" (by decide) (by decide)

/-- C8: when the subprocess has completed but the elapsed wall-clock time
exceeds the configured limit, the run posts (after the external call — the
check is only performed post hoc, as the trace order shows) a single terminal
`error` message whose fixed topic states that the timeout period was
exceeded and whose data interpolates `str(timedelta(seconds=limit))`, and
then forcibly terminates the process. -/
theorem timeout_emits_error_and_terminates (t : ThreadedArduinoCLI) (env : CliEnv)
    (lim : Nat) (output error : Captured) (rc : Int)
    (hlim : t.time_limit = some lim)
    (hel : lim < env.elapsed)
    (ho : env.outcome = PopenOutcome.completed output error rc) :
    ThreadedArduinoCLI.run t env =
      [Ev.put (infoMessage t), Ev.acquire, Ev.extcall, Ev.put (timeoutMessage lim),
        Ev.terminate, Ev.release] ∧
    (timeoutMessage lim).status = "error" ∧
    (timeoutMessage lim).topic =
      Json.str "The Arduino CLI command did not complete within the timeout period" ∧
    strContains "The Arduino CLI command did not complete within the timeout period"
      "timeout" = true ∧
    (timeoutMessage lim).data =
      Json.str ("The running Arduino CLI command took longer than " ++ timedeltaRepr lim) := by
  refine ⟨?_, rfl, rfl, by decide, rfl⟩
  unfold ThreadedArduinoCLI.run
  rw [runCritical.eq_def, hlim, ho]
  simp [hel, raisedEvents]

theorem timeout_emits_error_and_terminates_witness :
    (ThreadedArduinoCLI.run tOne envTimeout =
      [Ev.put (infoMessage tOne), Ev.acquire, Ev.extcall, Ev.put (timeoutMessage 1),
        Ev.terminate, Ev.release] ∧
    (timeoutMessage 1).status = "error" ∧
    (timeoutMessage 1).topic =
      Json.str "The Arduino CLI command did not complete within the timeout period" ∧
    strContains "The Arduino CLI command did not complete within the timeout period"
      "timeout" = true ∧
    (timeoutMessage 1).data =
      Json.str ("The running Arduino CLI command took longer than " ++ timedeltaRepr 1)) ∧
    timedeltaRepr 1 = "0:00:01" ∧
    strContains (timedeltaRepr 1) "1" = true :=
  ⟨timeout_emits_error_and_terminates tOne envTimeout 1 capAbsent capAbsent 0 rfl
      (by decide) rfl,
    rfl, by decide⟩

/-- C9: a run whose stderr decodes to the payload
`("error": "bad board", "output": ("stderr": "detail"))` with exit code 1
yields the terminal message `("error", "bad board", "bad board" ++ "detail")`:
the data field is the concatenation of the embedded error field and the
embedded stderr detail (lines 133-142 append the stderr text to the error
text; the `"\n"` of the claim's primary tuple only appears on the stdout
branch, which is absent here). -/
theorem stderr_error_payload_message :
    ThreadedArduinoCLI.run tCompile env9 =
      [Ev.put (infoMessage tCompile), Ev.acquire, Ev.extcall,
        Ev.put ⟨"error", Json.str "bad board", Json.str ("bad board" ++ "detail")⟩,
        Ev.release] :=
  rfl

/-- C10: each of the three queue-based query methods, called with a path at
which the CLI is not installed (not a file or not executable), performs
exactly one action: it puts the single
`("error", "Arduino CLI is not installed", "Arduino CLI is not installed")`
message directly on the queue from the calling thread — no worker thread is
constructed or started, and no preceding `info` message is emitted (the
`info` message only ever comes from a started worker's `run`). -/
theorem not_installed_puts_error_directly (file_path : String)
    (isFile isExecutable : Bool)
    (h : ArduinoCLI.is_installed isFile isExecutable = false) :
    ArduinoCLI.get_version file_path isFile isExecutable =
      CliAction.putMessage cliNotInstalled ∧
    ArduinoCLI.get_platforms file_path isFile isExecutable =
      CliAction.putMessage cliNotInstalled ∧
    ArduinoCLI.get_libraries file_path isFile isExecutable =
      CliAction.putMessage cliNotInstalled ∧
    cliNotInstalled = ⟨"error", Json.str "Arduino CLI is not installed",
      Json.str "Arduino CLI is not installed"⟩ := by
  refine ⟨?_, ?_, ?_, rfl⟩ <;>
    simp [ArduinoCLI.get_version, ArduinoCLI.get_platforms, ArduinoCLI.get_libraries, h]

theorem not_installed_puts_error_directly_witness :
    ArduinoCLI.get_version "arduino-cli" false true =
      CliAction.putMessage cliNotInstalled ∧
    ArduinoCLI.get_platforms "arduino-cli" false true =
      CliAction.putMessage cliNotInstalled ∧
    ArduinoCLI.get_libraries "arduino-cli" false true =
      CliAction.putMessage cliNotInstalled ∧
    cliNotInstalled = ⟨"error", Json.str "Arduino CLI is not installed",
      Json.str "Arduino CLI is not installed"⟩ :=
  not_installed_puts_error_directly "arduino-cli" false true rfl
